import Mathlib

/-!
Shallow embedding of two MicroPython drivers from this repository:
`st7789v.py` (ST7789V 240x320 LCD driver) and `xl9555.py` (XL9555 I2C GPIO
expander).  Side effects — SPI traffic, data/command and chip-select line
changes, expander pin writes, millisecond sleeps, and console warnings — are
embedded as explicit event lists; the frame buffer is a `List ℕ` of bytes.
Fallible operations return `Except String`.
-/

/-- Events emitted by the display driver: chip-select low/high, data/command
line low/high, an SPI write of a byte sequence, an XL9555 pin write, a
blocking millisecond sleep, and a console warning print. -/
inductive Ev where
  | csLow
  | csHigh
  | dcLow
  | dcHigh
  | spiWrite (bytes : List ℕ)
  | pinWrite (pin : ℕ) (value : ℕ)
  | sleepMs (ms : ℕ)
  | printWarn
  deriving DecidableEq, Repr

/-- Predicate picking out XL9555 pin-write events (used to observe whether a
trace touches the expander at all, e.g. for the reset pulse). -/
def isPinWrite : Ev → Bool
  | Ev.pinWrite _ _ => true
  | _ => false

/-- Command constant from `st7789v.py`: sleep out. -/
def ST7789_SLPOUT : ℕ := 0x11
/-- Command constant from `st7789v.py`: display inversion on. -/
def ST7789_INVON : ℕ := 0x21
/-- Command constant from `st7789v.py`: display on. -/
def ST7789_DISPON : ℕ := 0x29
/-- Command constant from `st7789v.py`: column address set. -/
def ST7789_CASET : ℕ := 0x2A
/-- Command constant from `st7789v.py`: row address set. -/
def ST7789_RASET : ℕ := 0x2B
/-- Command constant from `st7789v.py`: memory write. -/
def ST7789_RAMWR : ℕ := 0x2C
/-- Command constant from `st7789v.py`: addressing (memory access control). -/
def ST7789_MADCTL : ℕ := 0x36
/-- Command constant from `st7789v.py`: color mode. -/
def ST7789_COLMOD : ℕ := 0x3A
/-- Color constant from `st7789v.py`. -/
def COLOR_BLACK : ℕ := 0x0000

/-! ### Frame-buffer primitives (MicroPython `framebuf`, RGB565)

The driver subclasses `framebuf.FrameBuffer`, an external C module of
MicroPython.  The following definitions model its RGB565 semantics: pixel
(x, y) occupies the two bytes at offset `(y*width + x)*2`, low byte first
(little-endian 16-bit value). -/

/-- Store the 16-bit color at pixel (x, y): low byte at `(y*width + x)*2`,
high byte right after it (little-endian, as the RGB565 framebuf does on this
little-endian target). -/
def setPix (width : ℕ) (buf : List ℕ) (x y color : ℕ) : List ℕ :=
  (buf.set ((y * width + x) * 2) (color % 256)).set ((y * width + x) * 2 + 1)
    (color / 256 % 256)

/-- Read the 16-bit color stored at pixel (x, y) (little-endian pair). -/
def getPix (width : ℕ) (buf : List ℕ) (x y : ℕ) : ℕ :=
  buf.getD ((y * width + x) * 2) 0 + 256 * buf.getD ((y * width + x) * 2 + 1) 0

/-- Model of MicroPython `framebuf.FrameBuffer.pixel(x, y, c)` (external C
dependency): bounds-checked single-pixel store; out-of-range writes are
ignored by the C code. -/
def framebuf_pixel (width height : ℕ) (buf : List ℕ) (x y : ℤ) (color : ℕ) :
    List ℕ :=
  if 0 ≤ x ∧ x < (width : ℤ) ∧ 0 ≤ y ∧ y < (height : ℤ) then
    setPix width buf x.toNat y.toNat color
  else buf

/-- Inner loop of the C `fill_rect`: fill `n` consecutive pixels of row `y`
starting at column `x`. -/
def fillRow (width color y : ℕ) : List ℕ → ℕ → ℕ → List ℕ
  | buf, _, 0 => buf
  | buf, x, n + 1 => fillRow width color y (setPix width buf x y color) (x + 1) n

/-- Outer loop of the C `fill_rect`: fill `rows` consecutive rows starting at
row `y`, each `cols` pixels wide starting at column `x0`. -/
def fillRows (width color x0 cols : ℕ) : List ℕ → ℕ → ℕ → List ℕ
  | buf, _, 0 => buf
  | buf, y, r + 1 =>
    fillRows width color x0 cols (fillRow width color y buf x0 cols) (y + 1) r

/-- Model of MicroPython `framebuf.FrameBuffer.fill_rect` (external C
dependency).  The C code rejects empty or fully off-screen rectangles, then
clips the rectangle to the buffer (`MIN`/`MAX` macros, written here as the
corresponding `if` expressions) and fills row by row. -/
def framebuf_fill_rect (width height : ℕ) (buf : List ℕ) (x y w h : ℤ)
    (color : ℕ) : List ℕ :=
  if h < 1 ∨ w < 1 ∨ x + w ≤ 0 ∨ y + h ≤ 0 ∨ (height : ℤ) ≤ y ∨
      (width : ℤ) ≤ x then
    buf
  else
    let xend := if (width : ℤ) < x + w then (width : ℤ) else x + w
    let yend := if (height : ℤ) < y + h then (height : ℤ) else y + h
    let x0 := if x < 0 then 0 else x
    let y0 := if y < 0 then 0 else y
    fillRows width color x0.toNat (xend - x0).toNat buf y0.toNat
      (yend - y0).toNat

/-- Model of MicroPython `framebuf.FrameBuffer.fill(c)` (external C
dependency): every pixel of the width×height buffer is set to the 16-bit
color, stored little-endian. -/
def fillBuf (width height color : ℕ) : List ℕ :=
  (List.replicate (width * height) [color % 256, color / 256 % 256]).flatten

/-! ### The byte-swapping chunked transfer of `show()` -/

/-- Chunk size used by `show()` in `st7789v.py` (512 bytes = 256 pixels). -/
def CHUNK : ℕ := 512

/-- Byte sequence produced for one chunk by the inner loop of `show()`:
for `j = 0, 2, 4, ...` it emits `buf[i+j+1]` then `buf[i+j]` (the source
writes `chunk[j] = buf[i+j+1]; chunk[j+1] = buf[i+j]`), one pair per
iteration; `p` is the number of byte pairs in the chunk. -/
def convertPairs (buf : List ℕ) : ℕ → ℕ → List ℕ
  | _, 0 => []
  | i, p + 1 => buf.getD (i + 1) 0 :: buf.getD i 0 :: convertPairs buf (i + 2) p

/-- The converted chunk of `len` bytes starting at offset `i` (the source
loop `for j in range(0, end - i, 2)` runs `len / 2` times; for the even
chunk lengths produced by `show()` this is the whole chunk). -/
def convertChunk (buf : List ℕ) (i len : ℕ) : List ℕ :=
  convertPairs buf i (len / 2)

/-- All converted chunks of `show()`, in order: the source iterates
`for i in range(0, n, CHUNK)` (`(n + c - 1) / c` iterations for step `c > 0`)
with `end = min(i + CHUNK, n)`, sending one converted chunk per iteration. -/
def showChunks (buf : List ℕ) (c : ℕ) : List (List ℕ) :=
  (List.range' 0 ((buf.length + c - 1) / c) c).map fun i =>
    convertChunk buf i (min (i + c) buf.length - i)

/-- Concatenation of all chunk bytes written to the bus by `show()` using
chunk size `c`. -/
def showBytes (buf : List ℕ) (c : ℕ) : List ℕ :=
  (showChunks buf c).flatten

/-- Byte-swap a byte list in 2-byte groups (the inverse conversion the spec
speaks about; a trailing unpaired byte is left in place). -/
def swapPairs : List ℕ → List ℕ
  | a :: b :: rest => b :: a :: swapPairs rest
  | rest => rest

/-- Big-endian encoding of a 16-bit value as two bytes (high, low), following
the spec wording "big-endian 16-bit (start, end)". -/
def be16 (v : ℕ) : List ℕ :=
  [v / 256, v % 256]

/-! ### The ST7789V driver state and operations -/

/-- State of an `ST7789V` driver instance: physical dimensions `width`,
`height`, logical dimensions `w`, `h`, current `rotation`, the frame buffer
bytes, whether a chip-select pin was supplied (`cs` argument), and whether an
XL9555 collaborator was supplied (`_use_xl9555`). -/
structure ST7789V where
  width : ℕ
  height : ℕ
  w : ℕ
  h : ℕ
  rotation : ℕ
  buffer : List ℕ
  hasCS : Bool
  useXl : Bool
  deriving DecidableEq, Repr

namespace ST7789V

/-- `_write_cmd(cmd)`: assert chip select when present, pull D/C low, write
the single command byte, release chip select when present. -/
def _write_cmd (s : ST7789V) (cmd : ℕ) : List Ev :=
  (if s.hasCS then [Ev.csLow] else []) ++ [Ev.dcLow, Ev.spiWrite [cmd]] ++
    (if s.hasCS then [Ev.csHigh] else [])

/-- `_write_data(data)`: assert chip select when present, pull D/C high,
write the data bytes, release chip select when present. -/
def _write_data (s : ST7789V) (data : List ℕ) : List Ev :=
  (if s.hasCS then [Ev.csLow] else []) ++ [Ev.dcHigh, Ev.spiWrite data] ++
    (if s.hasCS then [Ev.csHigh] else [])

/-- `_write_reg(reg, *data)`: the command byte, then the data bytes if any
(`if data:` skips the data write for an empty tuple). -/
def _write_reg (s : ST7789V) (reg : ℕ) (data : List ℕ) : List Ev :=
  _write_cmd s reg ++ (if data ≠ [] then _write_data s data else [])

/-- `reset()`: pulse the reset pin (XL9555 pin 10) low then high with 100 ms
sleeps when the XL9555 is present; otherwise raise
`RuntimeError("RST control requires XL9555 on DNESP32S3")`. -/
def reset (s : ST7789V) : Except String (List Ev) :=
  if s.useXl then
    Except.ok [Ev.pinWrite 10 0, Ev.sleepMs 100, Ev.pinWrite 10 1,
      Ev.sleepMs 100]
  else Except.error "RST control requires XL9555 on DNESP32S3"

/-- `set_backlight(on)`: write the backlight pin (XL9555 pin 11, `int(on)`)
when the XL9555 is present; otherwise print a warning and return normally.
(The source parameter `on` is Mathlib notation, hence the name `onv`.) -/
def set_backlight (s : ST7789V) (onv : Bool) : List Ev :=
  if s.useXl then [Ev.pinWrite 11 (if onv then 1 else 0)]
  else [Ev.printWarn]

/-- `set_rotation(r)`: store `r % 4`, pick the MADCTL code and the logical
dimensions through the source's `if/elif` chain on the stored rotation, and
write the MADCTL register.  The final `else` arm is unreachable, since
`(r % 4).toNat < 4`; the Python source would raise `UnboundLocalError`
there (no branch assigns `madctl`). -/
def set_rotation (s : ST7789V) (r : ℤ) : ST7789V × List Ev :=
  let rot := (r % 4).toNat
  let mwh : ℕ × ℕ × ℕ :=
    if rot = 0 then (0x00, s.width, s.height)
    else if rot = 1 then (0x60, s.height, s.width)
    else if rot = 2 then (0xC0, s.width, s.height)
    else if rot = 3 then (0xA0, s.height, s.width)
    else (0, s.width, s.height)
  let s' := { s with rotation := rot, w := mwh.2.1, h := mwh.2.2 }
  (s', _write_reg s' ST7789_MADCTL [mwh.1])

/-- `set_window(x, y, w, h)`: CASET with the four bytes
`x_start >> 8 & 0xFF, x_start & 0xFF, x_end >> 8 & 0xFF, x_end & 0xFF`
(where `x_end = x + w - 1`), RASET likewise for rows, then the bare RAMWR
command.  (Coordinates are ℕ here; with `w = 0` the Python `x + w - 1` would
be `x - 1` as a signed value while ℕ subtraction truncates, so theorems about
this definition assume `0 < w` and `0 < h`.) -/
def set_window (s : ST7789V) (x y w h : ℕ) : List Ev :=
  let x_end := x + w - 1
  let y_end := y + h - 1
  _write_reg s ST7789_CASET
      [(x >>> 8) &&& 0xFF, x &&& 0xFF, (x_end >>> 8) &&& 0xFF, x_end &&& 0xFF] ++
    _write_reg s ST7789_RASET
      [(y >>> 8) &&& 0xFF, y &&& 0xFF, (y_end >>> 8) &&& 0xFF, y_end &&& 0xFF] ++
    _write_cmd s ST7789_RAMWR

/-- `show()` (named `show_` because `show` is a Lean keyword): program the
full-frame window, then `self.cs(0)`, `self.dc(1)`, send the byte-swapped
chunks, `self.cs(1)`.  Unlike `_write_cmd`/`_write_data`, the source calls
`self.cs(0)` without the `if self.cs:` guard, so when no chip-select pin was
supplied (`cs=None`) the call raises `TypeError` right after the window
commands. -/
def show_ (s : ST7789V) : Except String (List Ev) :=
  if s.hasCS then
    Except.ok (set_window s 0 0 s.width s.height ++ [Ev.csLow, Ev.dcHigh] ++
      (showChunks s.buffer CHUNK).map Ev.spiWrite ++ [Ev.csHigh])
  else Except.error "TypeError: cs is None"

/-- `pixel(x, y, color)`: the clipping override — delegate to the framebuf
pixel store only when `0 <= x < self.width and 0 <= y < self.height`. -/
def pixel (s : ST7789V) (x y : ℤ) (color : ℕ) : ST7789V :=
  if 0 ≤ x ∧ x < (s.width : ℤ) ∧ 0 ≤ y ∧ y < (s.height : ℤ) then
    { s with buffer := framebuf_pixel s.width s.height s.buffer x y color }
  else s

/-- `fill_rect(x, y, w, h, color)`: return unchanged when `w <= 0 or h <= 0`;
otherwise clamp the origin up to 0 and the far edge down to width/height and
delegate the clamped rectangle to the framebuf fill. -/
def fill_rect (s : ST7789V) (x y w h : ℤ) (color : ℕ) : ST7789V :=
  if w ≤ 0 ∨ h ≤ 0 then s
  else
    let end_x := x + w
    let end_y := y + h
    let x1 := if x < 0 then 0 else x
    let y1 := if y < 0 then 0 else y
    let end_x1 := if (s.width : ℤ) < end_x then (s.width : ℤ) else end_x
    let end_y1 := if (s.height : ℤ) < end_y then (s.height : ℤ) else end_y
    { s with
      buffer :=
        framebuf_fill_rect s.width s.height s.buffer x1 y1 (end_x1 - x1)
          (end_y1 - y1) color }

/-- `fill(color)` — inherited from framebuf: set every pixel. -/
def fill (s : ST7789V) (color : ℕ) : ST7789V :=
  { s with buffer := fillBuf s.width s.height color }

/-- `init_display(rotation)`: the reset pulse (only when the XL9555 is
present, with 10 ms / 120 ms sleeps), SLPOUT + 120 ms, COLMOD 0x05, INVON +
10 ms, `set_rotation`, DISPON + 100 ms, `set_backlight(True)`, a black
`fill`, and a final `show()`. -/
def init_display (s : ST7789V) (rotation : ℤ) : Except String (ST7789V × List Ev) :=
  let e0 :=
    if s.useXl then
      [Ev.pinWrite 10 0, Ev.sleepMs 10, Ev.pinWrite 10 1, Ev.sleepMs 120]
    else []
  let e1 := _write_cmd s ST7789_SLPOUT ++ [Ev.sleepMs 120]
  let e2 := _write_reg s ST7789_COLMOD [0x05]
  let e3 := _write_cmd s ST7789_INVON ++ [Ev.sleepMs 10]
  let p := set_rotation s rotation
  let e5 := _write_cmd p.1 ST7789_DISPON ++ [Ev.sleepMs 100]
  let e6 := set_backlight p.1 true
  let s2 := fill p.1 COLOR_BLACK
  match show_ s2 with
  | Except.ok e7 => Except.ok (s2, e0 ++ e1 ++ e2 ++ e3 ++ p.2 ++ e5 ++ e6 ++ e7)
  | Except.error msg => Except.error msg

/-- The driver state right after the `__init__` field assignments and
`bytearray(self.width * self.height * 2)` allocation, before `init_display`
runs (`self.w`, `self.h` and `self.rotation` are first assigned inside
`set_rotation`, so the buffer allocation does not depend on them). -/
def mk0 (width height : ℕ) (hasCS useXl : Bool) : ST7789V :=
  { width := width, height := height, w := width, h := height, rotation := 0,
    buffer := List.replicate (width * height * 2) 0, hasCS := hasCS,
    useXl := useXl }

end ST7789V

/-! ### The XL9555 expander -/

/-- An I2C register write issued by the XL9555 driver
(`i2c.writeto(addr, bytes([reg, value]))`). -/
inductive I2CEv where
  | regWrite (reg : ℕ) (value : ℕ)
  deriving DecidableEq, Repr

/-- Register constant from `xl9555.py`: output port 0. -/
def REG_OUTPUT_PORT0 : ℕ := 0x02

/-- Cached state of an `XL9555` instance: the two-entry output cache and the
two-entry configuration cache (`_output_cache`, `_config_cache`). -/
structure XL9555 where
  output_cache : List ℕ
  config_cache : List ℕ
  deriving DecidableEq, Repr

namespace XL9555

/-- `write_pin(pin, value)`: raise `ValueError` unless `0 <= pin <= 15`;
otherwise set or clear bit `pin % 8` of the output cache entry `pin // 8`
(Python `cache |= 1 << bit` / `cache &= ~(1 << bit)`; on a nonnegative cache
value the latter equals `Nat.ldiff cache (1 <<< bit)`) and write that one
output register. -/
def write_pin (s : XL9555) (pin : ℤ) (value : ℕ) :
    Except String (XL9555 × List I2CEv) :=
  if 0 ≤ pin ∧ pin ≤ 15 then
    let port := pin.toNat / 8
    let bit := pin.toNat % 8
    let cur := s.output_cache.getD port 0
    let new := if value ≠ 0 then cur ||| (1 <<< bit) else Nat.ldiff cur (1 <<< bit)
    (Except.ok
      ({ s with output_cache := s.output_cache.set port new },
       [I2CEv.regWrite (REG_OUTPUT_PORT0 + port) new]))
  else Except.error "Pin must be between 0 and 15"

end XL9555

/-! ### Byte-swap lemmas (for the chunked transfer) -/

theorem swapPairs_append : ∀ l1 : List ℕ, l1.length % 2 = 0 → ∀ l2 : List ℕ,
    swapPairs (l1 ++ l2) = swapPairs l1 ++ swapPairs l2
  | [], _, l2 => rfl
  | [a], h, _ => by simp at h
  | a :: b :: t, h, l2 => by
    have ht : t.length % 2 = 0 := by simp [List.length_cons] at h; omega
    simp only [List.cons_append, swapPairs, List.append_eq]
    rw [swapPairs_append t ht l2]

theorem swapPairs_swapPairs : ∀ l : List ℕ, swapPairs (swapPairs l) = l
  | [] => rfl
  | [a] => rfl
  | a :: b :: t => by
    simp only [swapPairs]
    rw [swapPairs_swapPairs t]

theorem getD_drop (l : List ℕ) (n m : ℕ) :
    (l.drop n).getD m 0 = l.getD (n + m) 0 := by
  simp [List.getD_eq_getD_get?, List.get?_eq_getElem?, List.getElem?_drop]

theorem convertPairs_drop (l : List ℕ) (n : ℕ) : ∀ (p i : ℕ),
    convertPairs (l.drop n) i p = convertPairs l (n + i) p
  | 0, _ => rfl
  | p + 1, i => by
    rw [convertPairs, convertPairs, getD_drop, getD_drop,
      convertPairs_drop l n p (i + 2)]
    have h1 : n + (i + 1) = n + i + 1 := by omega
    have h2 : n + (i + 2) = n + i + 2 := by omega
    rw [h1, h2]

theorem convertPairs_eq_swapPairs :
    ∀ (p : ℕ) (buf : List ℕ) (i : ℕ), i + 2 * p ≤ buf.length →
      convertPairs buf i p = swapPairs ((buf.drop i).take (2 * p))
  | 0, buf, i, _ => by simp [convertPairs, swapPairs]
  | p + 1, buf, i, h => by
    have hi : i < buf.length := by omega
    have hi1 : i + 1 < buf.length := by omega
    have h2 : 2 * (p + 1) = 2 * p + 1 + 1 := by ring
    rw [convertPairs, convertPairs_eq_swapPairs p buf (i + 2) (by omega),
      List.drop_eq_getElem_cons hi, List.drop_eq_getElem_cons hi1, h2,
      List.take_succ_cons, List.take_succ_cons, swapPairs,
      List.getD_eq_getElem buf 0 hi1, List.getD_eq_getElem buf 0 hi]

theorem showChunks_flatten (n : ℕ) :
    ∀ (buf : List ℕ) (c : ℕ), buf.length ≤ n → c % 2 = 0 → 0 < c →
      buf.length % 2 = 0 → (showChunks buf c).flatten = swapPairs buf := by
  induction n with
  | zero =>
    intro buf c hn _ hc _
    have hbuf : buf = [] := List.length_eq_zero.mp (by omega)
    subst hbuf
    simp [showChunks, Nat.div_eq_of_lt (show c - 1 < c by omega), swapPairs]
  | succ n ih =>
    intro buf c hn hc2 hc hb
    by_cases h0 : buf.length = 0
    · have hbuf : buf = [] := List.length_eq_zero.mp h0
      subst hbuf
      simp [showChunks, Nat.div_eq_of_lt (show c - 1 < c by omega), swapPairs]
    · have hL : 0 < buf.length := Nat.pos_of_ne_zero h0
      have hk : (buf.length + c - 1) / c = (buf.length - 1) / c + 1 := by
        have h1 : buf.length + c - 1 = buf.length - 1 + c := by omega
        rw [h1, Nat.add_div_right _ hc]
      rw [showChunks, hk, List.range'_succ, List.map_cons, List.flatten_cons]
      simp only [Nat.zero_add, Nat.sub_zero]
      by_cases hcL : c ≤ buf.length
      · have hchunk : convertChunk buf 0 (min c buf.length) =
            swapPairs (buf.take c) := by
          have hmin : min c buf.length = c := by omega
          rw [hmin, convertChunk,
            convertPairs_eq_swapPairs (c / 2) buf 0 (by omega), List.drop_zero]
          have h2c : 2 * (c / 2) = c := by omega
          rw [h2c]
        have hrest : (List.range' c ((buf.length - 1) / c) c).map
            (fun i => convertChunk buf i (min (i + c) buf.length - i)) =
            showChunks (buf.drop c) c := by
          rw [showChunks]
          have hlen : (buf.drop c).length = buf.length - c := by simp
          rw [hlen]
          have hm : (buf.length - c + c - 1) / c = (buf.length - 1) / c := by
            have h1 : buf.length - c + c - 1 = buf.length - 1 := by omega
            rw [h1]
          rw [hm]
          have hshift : List.range' c ((buf.length - 1) / c) c =
              (List.range' 0 ((buf.length - 1) / c) c).map (c + ·) := by
            rw [List.map_add_range']
            norm_num
          rw [hshift, List.map_map]
          apply List.map_congr_left
          intro i _
          simp only [Function.comp_apply]
          rw [convertChunk, convertChunk, convertPairs_drop]
          congr 1
          omega
        rw [hchunk, hrest,
          ih (buf.drop c) c (by simp only [List.length_drop]; omega) hc2 hc
            (by simp only [List.length_drop]; omega)]
        rw [← swapPairs_append (buf.take c)
          (by simp only [List.length_take]; omega) (buf.drop c),
          List.take_append_drop]
      · have hmin : min c buf.length = buf.length := by omega
        have hm0 : (buf.length - 1) / c = 0 := Nat.div_eq_of_lt (by omega)
        rw [hm0]
        simp only [List.range'_zero, List.map_nil, List.flatten_nil,
          List.append_nil]
        rw [hmin, convertChunk,
          convertPairs_eq_swapPairs (buf.length / 2) buf 0 (by omega),
          List.drop_zero]
        have h2L : 2 * (buf.length / 2) = buf.length := by omega
        rw [h2L, List.take_length]

/-- C1: for every frame buffer of even byte length, the concatenation of the
chunks written to the bus by `show()`, byte-swapped back in 2-byte groups,
equals the original buffer exactly; moreover the transfer output is exactly
the pairwise intra-pixel byte swap of the buffer (pixel order preserved).
This holds for every even positive chunk size (the source's reference value
is `CHUNK = 512`), whether or not it divides the buffer length evenly. -/
theorem C1_byteswap_roundtrip (buf : List ℕ) (c : ℕ) (hb : buf.length % 2 = 0)
    (hc2 : c % 2 = 0) (hc : 0 < c) :
    swapPairs (showBytes buf c) = buf ∧ showBytes buf c = swapPairs buf := by
  have h := showChunks_flatten buf.length buf c le_rfl hc2 hc hb
  refine ⟨?_, ?_⟩
  · rw [showBytes, h, swapPairs_swapPairs]
  · rw [showBytes, h]

/-- Witness for C1: a 6-byte buffer with chunk size 4 (which does not divide
6 evenly) round-trips. -/
theorem C1_byteswap_roundtrip_witness :
    swapPairs (showBytes [1, 2, 3, 4, 5, 6] 4) = [1, 2, 3, 4, 5, 6] ∧
    showBytes [1, 2, 3, 4, 5, 6] 4 = swapPairs [1, 2, 3, 4, 5, 6] :=
  C1_byteswap_roundtrip [1, 2, 3, 4, 5, 6] 4 (by decide) (by decide) (by decide)

/-! ### Pixel-store lemmas -/

theorem getD0 (l : List ℕ) (n : ℕ) : l.getD n 0 = (l[n]?).getD 0 := by
  rw [List.getD_eq_getD_get? l 0 n, List.get?_eq_getElem?]

theorem length_setPix (width : ℕ) (buf : List ℕ) (x y color : ℕ) :
    (setPix width buf x y color).length = buf.length := by
  simp [setPix]

theorem pix_index_lt (W H x y : ℕ) (hx : x < W) (hy : y < H) :
    y * W + x < W * H := by
  calc y * W + x < y * W + W := by omega
  _ = (y + 1) * W := by ring
  _ ≤ H * W := Nat.mul_le_mul_right W hy
  _ = W * H := Nat.mul_comm H W

theorem pix_index_inj (W x x' y y' : ℕ) (hx : x < W) (hx' : x' < W)
    (h : y * W + x = y' * W + x') : x = x' ∧ y = y' := by
  have hW : 0 < W := by omega
  have h1 : x = x' := by
    have e1 : (y * W + x) % W = x := by
      rw [Nat.add_comm, Nat.add_mul_mod_self_right, Nat.mod_eq_of_lt hx]
    have e2 : (y' * W + x') % W = x' := by
      rw [Nat.add_comm, Nat.add_mul_mod_self_right, Nat.mod_eq_of_lt hx']
    rw [← e1, ← e2, h]
  refine ⟨h1, ?_⟩
  subst h1
  have h2 : y * W = y' * W := by omega
  exact Nat.eq_of_mul_eq_mul_right hW h2

theorem getPix_setPix (W H : ℕ) (buf : List ℕ) (hbuf : buf.length = W * H * 2)
    (x y color i j : ℕ) (hx : x < W) (hy : y < H) (hi : i < W) (hj : j < H) :
    getPix W (setPix W buf x y color) i j =
      if i = x ∧ j = y then color % 65536 else getPix W buf i j := by
  have ha := pix_index_lt W H x y hx hy
  by_cases hij : i = x ∧ j = y
  · obtain ⟨rfl, rfl⟩ := hij
    rw [if_pos ⟨rfl, rfl⟩]
    simp only [getPix, setPix, getD0]
    rw [List.getElem?_set_self (by rw [List.length_set]; omega),
      List.getElem?_set_ne (by omega), List.getElem?_set_self (by omega)]
    simp only [Option.getD_some]
    omega
  · rw [if_neg hij]
    have hne : j * W + i ≠ y * W + x := by
      intro he
      exact hij ⟨(pix_index_inj W i x j y hi hx he).1,
        (pix_index_inj W i x j y hi hx he).2⟩
    simp only [getPix, setPix, getD0]
    rw [List.getElem?_set_ne (by omega), List.getElem?_set_ne (by omega),
      List.getElem?_set_ne (by omega), List.getElem?_set_ne (by omega)]

theorem setPix_bytes (W H : ℕ) (buf : List ℕ) (hbuf : buf.length = W * H * 2)
    (x y color : ℕ) (hx : x < W) (hy : y < H) :
    (setPix W buf x y color).getD ((y * W + x) * 2) 0 = color % 256 ∧
    (setPix W buf x y color).getD ((y * W + x) * 2 + 1) 0 = color / 256 % 256 := by
  have ha := pix_index_lt W H x y hx hy
  constructor
  · rw [setPix, getD0, List.getElem?_set_ne (by omega),
      List.getElem?_set_self (by omega)]
    rfl
  · rw [setPix, getD0, List.getElem?_set_self (by rw [List.length_set]; omega)]
    rfl

theorem length_fillRow (W color y : ℕ) : ∀ (n : ℕ) (buf : List ℕ) (x : ℕ),
    (fillRow W color y buf x n).length = buf.length
  | 0, _, _ => rfl
  | n + 1, buf, x => by
    rw [fillRow, length_fillRow W color y n (setPix W buf x y color) (x + 1),
      length_setPix]

theorem length_fillRows (W color x0 cols : ℕ) :
    ∀ (r : ℕ) (buf : List ℕ) (y0 : ℕ),
    (fillRows W color x0 cols buf y0 r).length = buf.length
  | 0, _, _ => rfl
  | r + 1, buf, y0 => by
    rw [fillRows,
      length_fillRows W color x0 cols r (fillRow W color y0 buf x0 cols) (y0 + 1),
      length_fillRow]

theorem getPix_fillRow (W H color y : ℕ) :
    ∀ (n : ℕ) (buf : List ℕ) (x0 : ℕ), buf.length = W * H * 2 →
      x0 + n ≤ W → y < H →
      ∀ i j : ℕ, i < W → j < H →
      getPix W (fillRow W color y buf x0 n) i j =
        if j = y ∧ x0 ≤ i ∧ i < x0 + n then color % 65536
        else getPix W buf i j
  | 0, buf, x0, _, _, _, i, j, _, _ => by
    rw [fillRow, if_neg (by omega)]
  | n + 1, buf, x0, hbuf, hxn, hy, i, j, hi, hj => by
    rw [fillRow,
      getPix_fillRow W H color y n (setPix W buf x0 y color) (x0 + 1)
        (by rw [length_setPix]; exact hbuf) (by omega) hy i j hi hj,
      getPix_setPix W H buf hbuf x0 y color i j (by omega) hy hi hj]
    by_cases h1 : j = y ∧ x0 + 1 ≤ i ∧ i < x0 + 1 + n
    · rw [if_pos h1, if_pos (by omega)]
    · rw [if_neg h1]
      by_cases h2 : i = x0 ∧ j = y
      · rw [if_pos h2, if_pos (by omega)]
      · rw [if_neg h2, if_neg (by omega)]

theorem getPix_fillRows (W H color x0 cols : ℕ) :
    ∀ (r : ℕ) (buf : List ℕ) (y0 : ℕ), buf.length = W * H * 2 →
      x0 + cols ≤ W → y0 + r ≤ H →
      ∀ i j : ℕ, i < W → j < H →
      getPix W (fillRows W color x0 cols buf y0 r) i j =
        if x0 ≤ i ∧ i < x0 + cols ∧ y0 ≤ j ∧ j < y0 + r then color % 65536
        else getPix W buf i j
  | 0, buf, y0, _, _, _, i, j, _, _ => by
    rw [fillRows, if_neg (by omega)]
  | r + 1, buf, y0, hbuf, hxc, hyr, i, j, hi, hj => by
    rw [fillRows,
      getPix_fillRows W H color x0 cols r (fillRow W color y0 buf x0 cols)
        (y0 + 1) (by rw [length_fillRow]; exact hbuf) hxc (by omega) i j hi hj,
      getPix_fillRow W H color y0 cols buf x0 hbuf hxc (by omega) i j hi hj]
    by_cases h1 : x0 ≤ i ∧ i < x0 + cols ∧ y0 + 1 ≤ j ∧ j < y0 + 1 + r
    · rw [if_pos h1, if_pos (by omega)]
    · rw [if_neg h1]
      by_cases h2 : j = y0 ∧ x0 ≤ i ∧ i < x0 + cols
      · rw [if_pos h2, if_pos (by omega)]
      · rw [if_neg h2, if_neg (by omega)]

theorem length_framebuf_fill_rect (W H : ℕ) (buf : List ℕ) (x y w h : ℤ)
    (color : ℕ) :
    (framebuf_fill_rect W H buf x y w h color).length = buf.length := by
  simp only [framebuf_fill_rect]
  split
  · rfl
  · rw [length_fillRows]

theorem getPix_framebuf_fill_rect (W H : ℕ) (buf : List ℕ)
    (hbuf : buf.length = W * H * 2) (x y w h : ℤ) (color : ℕ)
    (i j : ℕ) (hi : i < W) (hj : j < H) :
    getPix W (framebuf_fill_rect W H buf x y w h color) i j =
      if x ≤ (i : ℤ) ∧ (i : ℤ) < x + w ∧ y ≤ (j : ℤ) ∧ (j : ℤ) < y + h then
        color % 65536
      else getPix W buf i j := by
  simp only [framebuf_fill_rect]
  by_cases hg : h < 1 ∨ w < 1 ∨ x + w ≤ 0 ∨ y + h ≤ 0 ∨ (H : ℤ) ≤ y ∨
      (W : ℤ) ≤ x
  · rw [if_pos hg, if_neg (by omega)]
  · rw [if_neg hg,
      getPix_fillRows W H color _ _ _ buf _ hbuf (by split_ifs <;> omega)
        (by split_ifs <;> omega) i j hi hj]
    split_ifs <;> first | rfl | (exfalso; omega)

theorem length_flatten_replicate (n : ℕ) (l : List ℕ) :
    ((List.replicate n l).flatten).length = n * l.length := by
  induction n with
  | zero => simp
  | succ n ih =>
    rw [List.replicate_succ, List.flatten_cons, List.length_append, ih]
    ring

theorem length_fillBuf (W H color : ℕ) : (fillBuf W H color).length = W * H * 2 := by
  rw [fillBuf, length_flatten_replicate]
  rfl

theorem fill_rect_buffer (s : ST7789V) (x y w h : ℤ) (color : ℕ)
    (hno : ¬(w ≤ 0 ∨ h ≤ 0)) :
    (ST7789V.fill_rect s x y w h color).buffer =
      framebuf_fill_rect s.width s.height s.buffer (if x < 0 then 0 else x)
        (if y < 0 then 0 else y)
        ((if (s.width : ℤ) < x + w then (s.width : ℤ) else x + w) -
          (if x < 0 then 0 else x))
        ((if (s.height : ℤ) < y + h then (s.height : ℤ) else y + h) -
          (if y < 0 then 0 else y)) color := by
  rw [ST7789V.fill_rect, if_neg hno]

/-- C2: for every (x, y) with 0 ≤ x < width and 0 ≤ y < height,
`pixel(x, y, color)` (the driver's `set_pixel`) stores the 16-bit color at
(x, y) and a subsequent pixel read there returns that same color; for every
(x, y) outside those bounds the call is silently ignored and the driver state
(in particular the buffer) is unchanged byte for byte. -/
theorem C2_set_pixel_roundtrip (s : ST7789V) (x y : ℤ) (color : ℕ)
    (hbuf : s.buffer.length = s.width * s.height * 2) (hcol : color < 65536) :
    ((0 ≤ x ∧ x < (s.width : ℤ) ∧ 0 ≤ y ∧ y < (s.height : ℤ)) →
      getPix s.width (ST7789V.pixel s x y color).buffer x.toNat y.toNat =
        color) ∧
    (¬(0 ≤ x ∧ x < (s.width : ℤ) ∧ 0 ≤ y ∧ y < (s.height : ℤ)) →
      ST7789V.pixel s x y color = s) := by
  constructor
  · intro hin
    have hb : (ST7789V.pixel s x y color).buffer =
        setPix s.width s.buffer x.toNat y.toNat color := by
      rw [ST7789V.pixel, if_pos hin, framebuf_pixel, if_pos hin]
    rw [hb,
      getPix_setPix s.width s.height s.buffer hbuf x.toNat y.toNat color
        x.toNat y.toNat (by omega) (by omega) (by omega) (by omega),
      if_pos ⟨rfl, rfl⟩, Nat.mod_eq_of_lt hcol]
  · intro hout
    rw [ST7789V.pixel, if_neg hout]

/-- Witness for C2: on a 2×2 display, writing color 0xABCD at (1, 1) and
reading it back yields 0xABCD. -/
theorem C2_set_pixel_roundtrip_witness :
    getPix (ST7789V.mk0 2 2 true true).width
      (ST7789V.pixel (ST7789V.mk0 2 2 true true) 1 1 0xABCD).buffer
      (Int.toNat 1) (Int.toNat 1) = 0xABCD :=
  (C2_set_pixel_roundtrip (ST7789V.mk0 2 2 true true) 1 1 0xABCD (by decide)
    (by decide)).1 (by decide)

/-- C3: `fill_rect(x, y, w, h, color)` with w ≤ 0 or h ≤ 0 leaves the driver
unchanged; otherwise only the clamped intersection of the rectangle with
[0, width) × [0, height) is written (a pixel (i, j) in range reads `color`
exactly when x ≤ i < x+w and y ≤ j < y+h, i.e. the negative origin is raised
to 0 and the far edge capped at width/height) and every other pixel is
unchanged; the buffer length is always preserved.  Instantiated at
`fill_rect(-5, -5, 10, 10, c)` on a 240×320 buffer this says exactly that
pixels (0,0)–(4,4) read `c` and all others are untouched. -/
theorem C3_fill_rect_clipping (s : ST7789V) (x y w h : ℤ) (color : ℕ)
    (hbuf : s.buffer.length = s.width * s.height * 2) (hcol : color < 65536) :
    ((w ≤ 0 ∨ h ≤ 0) → ST7789V.fill_rect s x y w h color = s) ∧
    (ST7789V.fill_rect s x y w h color).buffer.length = s.buffer.length ∧
    (0 < w → 0 < h → ∀ i j : ℕ, i < s.width → j < s.height →
      getPix s.width (ST7789V.fill_rect s x y w h color).buffer i j =
        if x ≤ (i : ℤ) ∧ (i : ℤ) < x + w ∧ y ≤ (j : ℤ) ∧ (j : ℤ) < y + h then
          color
        else getPix s.width s.buffer i j) := by
  refine ⟨?_, ?_, ?_⟩
  · intro hwh
    rw [ST7789V.fill_rect, if_pos hwh]
  · by_cases hwh : w ≤ 0 ∨ h ≤ 0
    · rw [ST7789V.fill_rect, if_pos hwh]
    · rw [fill_rect_buffer s x y w h color hwh, length_framebuf_fill_rect,
        hbuf]
  · intro hw hh i j hi hj
    rw [fill_rect_buffer s x y w h color (by omega),
      getPix_framebuf_fill_rect s.width s.height s.buffer hbuf _ _ _ _ color
        i j hi hj, Nat.mod_eq_of_lt hcol]
    split_ifs <;> first | rfl | (exfalso; omega)

/-- Witness for C3: on a 2×2 display, `fill_rect(-1, -1, 2, 2, 5)` makes
pixel (0, 0) read color 5 (the rectangle clamped to (0,0)–(0,0)). -/
theorem C3_fill_rect_clipping_witness :
    getPix (ST7789V.mk0 2 2 true true).width
        (ST7789V.fill_rect (ST7789V.mk0 2 2 true true) (-1) (-1) 2 2 5).buffer
        0 0 =
      if (-1 : ℤ) ≤ 0 ∧ (0 : ℤ) < -1 + 2 ∧ (-1 : ℤ) ≤ 0 ∧ (0 : ℤ) < -1 + 2 then
        5
      else
        getPix (ST7789V.mk0 2 2 true true).width
          (ST7789V.mk0 2 2 true true).buffer 0 0 :=
  (C3_fill_rect_clipping (ST7789V.mk0 2 2 true true) (-1) (-1) 2 2 5
    (by decide) (by decide)).2.2 (by decide) (by decide) 0 0 (by decide)
    (by decide)

/-- C9: the pixel-store invariant.  The buffer allocated at construction
(`bytearray(width*height*2)`) has length width*height*2; every draw operation
(`pixel`, `fill_rect`, `fill`) returns a buffer of that same length (the
Python operations mutate the bytearray in place via item assignment, embedded
here as `List.set`, so the store is never reallocated; `show()` reads the
buffer and leaves the state untouched); and an in-bounds `pixel` write stores
the 16-bit RGB565 value little-endian at byte offset (y*width + x)*2. -/
theorem C9_pixel_store_invariant (W H : ℕ) (a b : Bool) (s : ST7789V)
    (x y w h : ℤ) (color : ℕ)
    (hbuf : s.buffer.length = s.width * s.height * 2) :
    (ST7789V.mk0 W H a b).buffer.length = W * H * 2 ∧
    (ST7789V.pixel s x y color).buffer.length = s.width * s.height * 2 ∧
    (ST7789V.fill_rect s x y w h color).buffer.length =
      s.width * s.height * 2 ∧
    (ST7789V.fill s color).buffer.length = s.width * s.height * 2 ∧
    ((0 ≤ x ∧ x < (s.width : ℤ) ∧ 0 ≤ y ∧ y < (s.height : ℤ)) →
      (ST7789V.pixel s x y color).buffer.getD
          ((y.toNat * s.width + x.toNat) * 2) 0 = color % 256 ∧
      (ST7789V.pixel s x y color).buffer.getD
          ((y.toNat * s.width + x.toNat) * 2 + 1) 0 = color / 256 % 256) := by
  refine ⟨?_, ?_, ?_, ?_, ?_⟩
  · simp [ST7789V.mk0]
  · by_cases hin : 0 ≤ x ∧ x < (s.width : ℤ) ∧ 0 ≤ y ∧ y < (s.height : ℤ)
    · have hb : (ST7789V.pixel s x y color).buffer =
          setPix s.width s.buffer x.toNat y.toNat color := by
        rw [ST7789V.pixel, if_pos hin, framebuf_pixel, if_pos hin]
      rw [hb, length_setPix, hbuf]
    · rw [ST7789V.pixel, if_neg hin, hbuf]
  · by_cases hwh : w ≤ 0 ∨ h ≤ 0
    · rw [ST7789V.fill_rect, if_pos hwh, hbuf]
    · rw [fill_rect_buffer s x y w h color hwh, length_framebuf_fill_rect,
        hbuf]
  · rw [ST7789V.fill]
    exact length_fillBuf s.width s.height color
  · intro hin
    have hb : (ST7789V.pixel s x y color).buffer =
        setPix s.width s.buffer x.toNat y.toNat color := by
      rw [ST7789V.pixel, if_pos hin, framebuf_pixel, if_pos hin]
    rw [hb]
    exact setPix_bytes s.width s.height s.buffer hbuf x.toNat y.toNat color
      (by omega) (by omega)

/-- Witness for C9: a freshly constructed 3×2 driver has a 3*2*2-byte
buffer. -/
theorem C9_pixel_store_invariant_witness :
    (ST7789V.mk0 3 2 true true).buffer.length = 3 * 2 * 2 :=
  (C9_pixel_store_invariant 3 2 true true (ST7789V.mk0 3 2 true true) 0 0 1 1 0
    (by decide)).1

theorem mask_lo (v : ℕ) : v &&& 0xFF = v % 256 := by
  have h255 : (0xFF : ℕ) = 2 ^ 8 - 1 := by norm_num
  rw [h255, Nat.and_pow_two_sub_one_eq_mod]

theorem shift_mask_hi (v : ℕ) (hv : v < 65536) : (v >>> 8) &&& 0xFF = v / 256 := by
  rw [Nat.shiftRight_eq_div_pow, mask_lo]
  have hlt : v / 2 ^ 8 < 256 := by omega
  rw [Nat.mod_eq_of_lt hlt]
  norm_num

/-- C4: for every integer r, `set_rotation(r)` stores r mod 4 (Python `%`,
embedded as `Int.emod`, always lands in {0,1,2,3}) and selects exactly:
rotation 0 → MADCTL code 0x00 with logical dims (240, 320); 1 → 0x60 with
(320, 240); 2 → 0xC0 with (240, 320); 3 → 0xA0 with (320, 240) on the
240×320 display, writing the code to the MADCTL register; the pixel store
and the physical width/height are never changed by a rotation change (the
buffer is not touched, so in particular never reallocated). -/
theorem C4_rotation_mapping (s : ST7789V) (r : ℤ) (hw : s.width = 240)
    (hh : s.height = 320) :
    (ST7789V.set_rotation s r).1.buffer = s.buffer ∧
    (ST7789V.set_rotation s r).1.width = s.width ∧
    (ST7789V.set_rotation s r).1.height = s.height ∧
    (ST7789V.set_rotation s r).1.rotation = (r % 4).toNat ∧
    (r % 4 = 0 →
      (ST7789V.set_rotation s r).2 =
        ST7789V._write_reg (ST7789V.set_rotation s r).1 ST7789_MADCTL [0x00] ∧
      (ST7789V.set_rotation s r).1.w = 240 ∧
      (ST7789V.set_rotation s r).1.h = 320) ∧
    (r % 4 = 1 →
      (ST7789V.set_rotation s r).2 =
        ST7789V._write_reg (ST7789V.set_rotation s r).1 ST7789_MADCTL [0x60] ∧
      (ST7789V.set_rotation s r).1.w = 320 ∧
      (ST7789V.set_rotation s r).1.h = 240) ∧
    (r % 4 = 2 →
      (ST7789V.set_rotation s r).2 =
        ST7789V._write_reg (ST7789V.set_rotation s r).1 ST7789_MADCTL [0xC0] ∧
      (ST7789V.set_rotation s r).1.w = 240 ∧
      (ST7789V.set_rotation s r).1.h = 320) ∧
    (r % 4 = 3 →
      (ST7789V.set_rotation s r).2 =
        ST7789V._write_reg (ST7789V.set_rotation s r).1 ST7789_MADCTL [0xA0] ∧
      (ST7789V.set_rotation s r).1.w = 320 ∧
      (ST7789V.set_rotation s r).1.h = 240) := by
  refine ⟨?_, ?_, ?_, ?_, ?_, ?_, ?_, ?_⟩
  · simp [ST7789V.set_rotation]
  · simp [ST7789V.set_rotation]
  · simp [ST7789V.set_rotation]
  · simp [ST7789V.set_rotation]
  · intro h0
    simp [ST7789V.set_rotation, h0, hw, hh]
  · intro h1
    simp [ST7789V.set_rotation, h1, hw, hh]
  · intro h2
    simp [ST7789V.set_rotation, h2, hw, hh]
  · intro h3
    simp [ST7789V.set_rotation, h3, hw, hh]

/-- Witness for C4: on a fresh 240×320 driver, rotation 5 (≡ 1 mod 4) gives
MADCTL 0x60 and logical dims (320, 240). -/
theorem C4_rotation_mapping_witness :
    (ST7789V.set_rotation (ST7789V.mk0 240 320 true true) 5).2 =
      ST7789V._write_reg (ST7789V.set_rotation (ST7789V.mk0 240 320 true true) 5).1
        ST7789_MADCTL [0x60] ∧
    (ST7789V.set_rotation (ST7789V.mk0 240 320 true true) 5).1.w = 320 ∧
    (ST7789V.set_rotation (ST7789V.mk0 240 320 true true) 5).1.h = 240 :=
  (C4_rotation_mapping (ST7789V.mk0 240 320 true true) 5 rfl rfl).2.2.2.2.2.1
    (by decide)

/-- C5: `set_window(x, y, w, h)` issues exactly three sequences in order: the
CASET command with the 4-byte big-endian payload (x_start, x_end), the RASET
command with big-endian (y_start, y_end), and the bare RAMWR command, where
x_end = x+w-1 and y_end = y+h-1 (for nonempty windows whose ends fit in 16
bits); in particular `set_window(10, 20, 30, 40)` yields column payload
[0x00, 0x0A, 0x00, 0x27] and row payload [0x00, 0x14, 0x00, 0x3B]. -/
theorem C5_set_window_protocol (s : ST7789V) :
    (∀ x y w h : ℕ, 0 < w → 0 < h → x + w - 1 < 65536 → y + h - 1 < 65536 →
      ST7789V.set_window s x y w h =
        ST7789V._write_cmd s ST7789_CASET ++
          ST7789V._write_data s (be16 x ++ be16 (x + w - 1)) ++
          ST7789V._write_cmd s ST7789_RASET ++
          ST7789V._write_data s (be16 y ++ be16 (y + h - 1)) ++
          ST7789V._write_cmd s ST7789_RAMWR) ∧
    ST7789V.set_window s 10 20 30 40 =
      ST7789V._write_cmd s ST7789_CASET ++
        ST7789V._write_data s [0x00, 0x0A, 0x00, 0x27] ++
        ST7789V._write_cmd s ST7789_RASET ++
        ST7789V._write_data s [0x00, 0x14, 0x00, 0x3B] ++
        ST7789V._write_cmd s ST7789_RAMWR := by
  have main : ∀ x y w h : ℕ, 0 < w → 0 < h → x + w - 1 < 65536 →
      y + h - 1 < 65536 →
      ST7789V.set_window s x y w h =
        ST7789V._write_cmd s ST7789_CASET ++
          ST7789V._write_data s (be16 x ++ be16 (x + w - 1)) ++
          ST7789V._write_cmd s ST7789_RASET ++
          ST7789V._write_data s (be16 y ++ be16 (y + h - 1)) ++
          ST7789V._write_cmd s ST7789_RAMWR := by
    intro x y w h hw hh hx hy
    simp only [ST7789V.set_window, ST7789V._write_reg, be16]
    rw [shift_mask_hi x (by omega), mask_lo x, shift_mask_hi (x + w - 1) hx,
      mask_lo (x + w - 1), shift_mask_hi y (by omega), mask_lo y,
      shift_mask_hi (y + h - 1) hy, mask_lo (y + h - 1)]
    have hx8 : x / 256 < 256 := by omega
    have hy8 : y / 256 < 256 := by omega
    simp [List.append_assoc, Nat.mod_eq_of_lt]
  refine ⟨main, ?_⟩
  have h2 := main 10 20 30 40 (by norm_num) (by norm_num) (by norm_num)
    (by norm_num)
  rw [h2]
  norm_num [be16]

/-- Witness for C5: the protocol equation evaluated at
`set_window(10, 20, 30, 40)` expressed through `be16`. -/
theorem C5_set_window_protocol_witness :
    ST7789V.set_window (ST7789V.mk0 2 2 true true) 10 20 30 40 =
      ST7789V._write_cmd (ST7789V.mk0 2 2 true true) ST7789_CASET ++
        ST7789V._write_data (ST7789V.mk0 2 2 true true)
          (be16 10 ++ be16 (10 + 30 - 1)) ++
        ST7789V._write_cmd (ST7789V.mk0 2 2 true true) ST7789_RASET ++
        ST7789V._write_data (ST7789V.mk0 2 2 true true)
          (be16 20 ++ be16 (20 + 40 - 1)) ++
        ST7789V._write_cmd (ST7789V.mk0 2 2 true true) ST7789_RAMWR :=
  (C5_set_window_protocol (ST7789V.mk0 2 2 true true)).1 10 20 30 40
    (by decide) (by decide) (by decide) (by decide)

/-- C6: with no XL9555 collaborator configured, `reset()` raises the
configuration error `RuntimeError("RST control requires XL9555 on
DNESP32S3")` (never silently does nothing) while `set_backlight(on)` is
accepted and produces only the warning print, leaving driver state untouched
(both operations are pure event emitters in this embedding and never modify
the state); with a collaborator configured, neither call errors: `reset()`
pulses pin 10 with 100 ms delays and `set_backlight(on)` writes pin 11. -/
theorem C6_reset_backlight_contract (s : ST7789V) (onv : Bool) :
    (s.useXl = false →
      ST7789V.reset s =
        Except.error "RST control requires XL9555 on DNESP32S3" ∧
      ST7789V.set_backlight s onv = [Ev.printWarn]) ∧
    (s.useXl = true →
      ST7789V.reset s =
        Except.ok [Ev.pinWrite 10 0, Ev.sleepMs 100, Ev.pinWrite 10 1,
          Ev.sleepMs 100] ∧
      ST7789V.set_backlight s onv = [Ev.pinWrite 11 (if onv then 1 else 0)]) := by
  constructor
  · intro hx
    exact ⟨by simp [ST7789V.reset, hx], by simp [ST7789V.set_backlight, hx]⟩
  · intro hx
    exact ⟨by simp [ST7789V.reset, hx], by simp [ST7789V.set_backlight, hx]⟩

/-- Witness for C6: a driver built without the XL9555 errors on reset and
warns on backlight. -/
theorem C6_reset_backlight_contract_witness :
    ST7789V.reset (ST7789V.mk0 2 2 true false) =
      Except.error "RST control requires XL9555 on DNESP32S3" ∧
    ST7789V.set_backlight (ST7789V.mk0 2 2 true false) true = [Ev.printWarn] :=
  (C6_reset_backlight_contract (ST7789V.mk0 2 2 true false) true).1 rfl

/-- C8 (code bug): `show()` calls `self.cs(0)` without the `if self.cs:`
guard used by `_write_cmd`/`_write_data`, so on a driver constructed without
a chip-select pin the chunked refresh raises `TypeError` instead of
completing; the guarded command and data writes do complete without error and
without touching chip select, as the claim says. -/
theorem C8_show_requires_cs_bug :
    ST7789V.show_ (ST7789V.mk0 2 2 false true) =
      Except.error "TypeError: cs is None" ∧
    ST7789V._write_cmd (ST7789V.mk0 2 2 false true) ST7789_RAMWR =
      [Ev.dcLow, Ev.spiWrite [ST7789_RAMWR]] ∧
    ST7789V._write_data (ST7789V.mk0 2 2 false true) [1, 2] =
      [Ev.dcHigh, Ev.spiWrite [1, 2]] :=
  ⟨rfl, rfl, rfl⟩

/-- Counterexample for C7: a driver constructed without the XL9555
collaborator (chip select present) initializes successfully but its
initialization trace contains no expander pin write at all — in particular
no hardware-reset pulse — refuting "the full initialization sequence always
performs hardware reset first". -/
theorem C7_counterexample :
    (ST7789V.init_display (ST7789V.mk0 2 2 true false) 0).map
      (fun p => p.2.filter isPinWrite) = Except.ok [] := by
  rfl

/-- C7 (amended): for every driver with a chip-select pin, `init_display(r)`
succeeds and emits exactly, in this fixed linear order with no branching on
failure: the hardware reset pulse when the XL9555 collaborator is configured
(skipped when it is not), sleep-out (0x11) plus delay, color-mode set (0x3A,
payload 0x05), display-inversion-on (0x21) plus delay, the addressing-mode
write of the current rotation, display-on (0x29) plus delay, backlight on
(a warning print when no collaborator), then a full-buffer black fill
followed by a refresh of that buffer; the final state is the rotated state
with an all-black frame buffer. -/
theorem C7_init_sequence (s : ST7789V) (r : ℤ) (hcs : s.hasCS = true) :
    ST7789V.init_display s r =
      Except.ok
        ({ (ST7789V.set_rotation s r).1 with
            buffer := fillBuf s.width s.height 0 },
         (if s.useXl then
            [Ev.pinWrite 10 0, Ev.sleepMs 10, Ev.pinWrite 10 1, Ev.sleepMs 120]
          else []) ++
          ([Ev.csLow, Ev.dcLow, Ev.spiWrite [ST7789_SLPOUT], Ev.csHigh,
              Ev.sleepMs 120] ++
            [Ev.csLow, Ev.dcLow, Ev.spiWrite [ST7789_COLMOD], Ev.csHigh,
              Ev.csLow, Ev.dcHigh, Ev.spiWrite [0x05], Ev.csHigh] ++
            [Ev.csLow, Ev.dcLow, Ev.spiWrite [ST7789_INVON], Ev.csHigh,
              Ev.sleepMs 10]) ++
          (ST7789V.set_rotation s r).2 ++
          [Ev.csLow, Ev.dcLow, Ev.spiWrite [ST7789_DISPON], Ev.csHigh,
            Ev.sleepMs 100] ++
          (if s.useXl then [Ev.pinWrite 11 1] else [Ev.printWarn]) ++
          (ST7789V.set_window
              { (ST7789V.set_rotation s r).1 with
                  buffer := fillBuf s.width s.height 0 } 0 0 s.width
              s.height ++
            [Ev.csLow, Ev.dcHigh] ++
            (showChunks (fillBuf s.width s.height 0) CHUNK).map Ev.spiWrite ++
            [Ev.csHigh])) := by
  simp only [ST7789V.init_display, ST7789V.show_, ST7789V.fill,
    ST7789V.set_backlight, ST7789V.set_rotation, ST7789V._write_reg,
    ST7789V._write_cmd, ST7789V._write_data, COLOR_BLACK, hcs, if_true]
  simp [List.append_assoc]

/-- Witness for C7: a concrete 2×2 driver with chip select and XL9555
initializes successfully. -/
theorem C7_init_sequence_witness :
    (ST7789V.init_display (ST7789V.mk0 2 2 true true) 0).isOk = true := by
  rw [C7_init_sequence (ST7789V.mk0 2 2 true true) 0 rfl]
  rfl

/-- C10: `XL9555.write_pin(pin, level)` with 0 ≤ pin ≤ 15 updates exactly bit
`pin % 8` of output-cache entry `pin // 8` to the given level (set when the
level is nonzero, cleared when zero), issues exactly one I2C write, to that
port's output register, and leaves every other bit of that entry, the other
entry, and the whole configuration cache unchanged; for every pin outside
0–15 it raises `ValueError("Pin must be between 0 and 15")` with no state
change and no bus write. -/
theorem C10_write_pin (s : XL9555) (pin : ℤ) (value : ℕ) :
    (0 ≤ pin → pin ≤ 15 →
      ∃ new : ℕ,
        XL9555.write_pin s pin value =
          Except.ok
            ({ s with
                output_cache := s.output_cache.set (pin.toNat / 8) new },
             [I2CEv.regWrite (REG_OUTPUT_PORT0 + pin.toNat / 8) new]) ∧
        (new.testBit (pin.toNat % 8) = true ↔ value ≠ 0) ∧
        (∀ b : ℕ, b ≠ pin.toNat % 8 →
          new.testBit b =
            (s.output_cache.getD (pin.toNat / 8) 0).testBit b) ∧
        (∀ q : ℕ, q ≠ pin.toNat / 8 →
          (s.output_cache.set (pin.toNat / 8) new).getD q 0 =
            s.output_cache.getD q 0)) ∧
    (¬(0 ≤ pin ∧ pin ≤ 15) →
      XL9555.write_pin s pin value =
        Except.error "Pin must be between 0 and 15") := by
  constructor
  · intro h0 h15
    refine ⟨if value ≠ 0 then
        s.output_cache.getD (pin.toNat / 8) 0 ||| (1 <<< (pin.toNat % 8))
      else
        Nat.ldiff (s.output_cache.getD (pin.toNat / 8) 0)
          (1 <<< (pin.toNat % 8)), ?_, ?_, ?_, ?_⟩
    · rw [XL9555.write_pin, if_pos ⟨h0, h15⟩]
    · by_cases hv : value ≠ 0
      · simp [hv, Nat.testBit_lor, Nat.one_shiftLeft, Nat.testBit_two_pow_self]
      · simp [hv, Nat.testBit_ldiff, Nat.one_shiftLeft,
          Nat.testBit_two_pow_self]
    · intro b hb
      by_cases hv : value ≠ 0
      · simp [hv, Nat.testBit_lor, Nat.one_shiftLeft,
          Nat.testBit_two_pow_of_ne (Ne.symm hb)]
      · simp [hv, Nat.testBit_ldiff, Nat.one_shiftLeft,
          Nat.testBit_two_pow_of_ne (Ne.symm hb)]
    · intro q hq
      rw [getD0, List.getElem?_set_ne (by omega), ← getD0]
  · intro hout
    rw [XL9555.write_pin, if_neg hout]

/-- Witness for C10: writing level 1 to pin 10 on a freshly configured
expander updates output port 1 (cache entry index 1, register 3), setting
bit 2. -/
theorem C10_write_pin_witness :
    ∃ new : ℕ,
      XL9555.write_pin ⟨[0, 0], [3, 0xF0]⟩ 10 1 =
        Except.ok
          ({ output_cache := ([0, 0] : List ℕ).set 1 new,
             config_cache := [3, 0xF0] },
           [I2CEv.regWrite 3 new]) ∧
      (new.testBit 2 = true ↔ (1 : ℕ) ≠ 0) ∧
      (∀ b : ℕ, b ≠ 2 →
        new.testBit b = (([0, 0] : List ℕ).getD 1 0).testBit b) ∧
      (∀ q : ℕ, q ≠ 1 →
        (([0, 0] : List ℕ).set 1 new).getD q 0 =
          ([0, 0] : List ℕ).getD q 0) :=
  (C10_write_pin ⟨[0, 0], [3, 0xF0]⟩ 10 1).1 (by decide) (by decide)
